import Mathlib

/-!
Verification of the yahoo-fantasy-nba repository.

This file shallowly embeds the two core subsystems of the repository:

* the stat normalizer and fantasy ranking engine of
  `nba_analysis_scripts/nba_analysis.py` (fraction parsing, numeric
  coercion of count and percentage columns, per-category z-scores,
  the composite `Fantasy_Score`, and the ranked output), and
* the paginated ingestion loop `get_all_player_data` of `src/main.py`.

Numeric values are modelled over `ℚ` (exact arithmetic in place of the
floats used by pandas/numpy); the square root needed for standard
deviations lives in `ℝ`.  A raw CSV cell after `pd.to_numeric(...,
errors='coerce')` is modelled as `Option ℚ`: `some q` for a cell that
coerces to the number `q`, `none` for a missing or unparsable cell
(pandas `NaN`).
-/

namespace NbaSpec

/-! ## Stat normalizer (`nba_analysis.py`, numeric_cols loop)

The source loop is

```
for col in numeric_cols:
    df[col] = pd.to_numeric(df[col], errors='coerce')
    if col in ['FG%', 'FT%']:
        df[col] = (df[col] * 100).round().astype(pd.Int64Dtype())
    else:
        df[col] = df[col].fillna(0).astype(int)
```

`Series.round()` is numpy rounding, i.e. round-half-to-even; `astype(int)`
on a float truncates toward zero; `astype(pd.Int64Dtype())` keeps `NaN`
as a null (`pd.NA`).
-/

/-- Round-half-to-even on `ℚ`, the rounding used by numpy/pandas
`Series.round()`. -/
def roundHalfEven (q : ℚ) : ℤ :=
  if Int.fract q < 1 / 2 then ⌊q⌋
  else if 1 / 2 < Int.fract q then ⌊q⌋ + 1
  else if Even ⌊q⌋ then ⌊q⌋ else ⌊q⌋ + 1

/-- Truncation toward zero, the conversion performed by
`astype(int)` on a float column. -/
def truncQ (q : ℚ) : ℤ :=
  if 0 ≤ q then ⌊q⌋ else ⌈q⌉

/-- Normalization of a percentage column cell (`FG%`, `FT%`):
`(df[col] * 100).round().astype(pd.Int64Dtype())`.  A missing or
unparsable cell (`none`) stays null. -/
def normPct (v : Option ℚ) : Option ℤ :=
  v.map (fun q => roundHalfEven (q * 100))

/-- Normalization of a count column cell (`PTS`, `REB`, `AST`, `ST`,
`BLK`, `3PTM`, `TO`, ...): `df[col].fillna(0).astype(int)`.  A missing
or unparsable cell is defaulted to `0`; the result is always an
integer, never null. -/
def normCount (v : Option ℚ) : ℤ :=
  truncQ (v.getD 0)

/-! ## Fraction parser (`nba_analysis.py`, `parse_fraction`)

```
def parse_fraction(s):
    if isinstance(s, str) and '/' in s:
        try:
            numerator, denominator = map(float, s.split('/'))
            return numerator, denominator
        except ValueError:
            return None, None
    return None, None
```
-/

/-- A Python value as seen by `parse_fraction`: either a string or any
non-string value (float `NaN`, numbers, ...). -/
inductive PyVal where
  | str (s : String)
  | nonstr
deriving DecidableEq

/-- Python `str.split(sep)` on a list of characters: splits on every
occurrence of `sep`; `"".split('/') = [""]`, `"/".split('/') = ["",""]`. -/
def splitOnChar (sep : Char) : List Char → List (List Char)
  | [] => [[]]
  | c :: rest =>
    let r := splitOnChar sep rest
    if c = sep then [] :: r
    else
      match r with
      | [] => [[c]]
      | g :: gs => (c :: g) :: gs

/-- Numeric value of a list of decimal digit characters. -/
def digitsVal (cs : List Char) : ℕ :=
  cs.foldl (fun n c => 10 * n + (c.toNat - 48)) 0

/-- Python `float()` on an unsigned decimal literal: digits with an
optional decimal point and at least one digit (`"10"`, `"10."`,
`".5"`); anything else (such as `"abc"` or `""`) raises `ValueError`,
modelled as `none`.  Whitespace, exponents and `inf`/`nan` forms are
omitted; the repository's data path never produces them. -/
def parseUnsigned (cs : List Char) : Option ℚ :=
  match splitOnChar '.' cs with
  | [ip] =>
    if ip ≠ [] ∧ ip.all Char.isDigit then some (digitsVal ip) else none
  | [ip, fp] =>
    if (ip ≠ [] ∨ fp ≠ []) ∧ ip.all Char.isDigit ∧ fp.all Char.isDigit then
      some ((digitsVal ip : ℚ) + (digitsVal fp : ℚ) / 10 ^ fp.length)
    else none
  | _ => none

/-- Python `float()` on a decimal literal with optional sign. -/
def parseFloat (cs : List Char) : Option ℚ :=
  match cs with
  | '-' :: rest => (parseUnsigned rest).map (fun q => -q)
  | '+' :: rest => parseUnsigned rest
  | _ => parseUnsigned cs

/-- The function `parse_fraction` of `nba_analysis.py`.  A non-string input or a
string without `'/'` returns `(None, None)`; otherwise the string is
split on `'/'` and both parts converted with `float()`; the unpacking
`numerator, denominator = ...` raises `ValueError` (returning
`(None, None)`) unless there are exactly two parts and both convert. -/
def parse_fraction (v : PyVal) : Option ℚ × Option ℚ :=
  match v with
  | .str s =>
    let cs := s.toList
    if cs.contains '/' then
      match (splitOnChar '/' cs).map parseFloat with
      | [some a, some b] => (some a, some b)
      | _ => (none, none)
    else (none, none)
  | .nonstr => (none, none)

/-! ## Ranking engine (`nba_analysis.py`, fantasy ranking block)

```
fantasy_categories = ['PTS', 'REB', 'AST', 'ST', 'BLK', '3PTM', 'FG%', 'FT%', 'TO']
for category in fantasy_categories:
    df_fantasy[category] = pd.to_numeric(df_fantasy[category], errors='coerce').fillna(0)
    mean = df_fantasy[category].mean()
    std = df_fantasy[category].std()
    if std == 0:
        df_fantasy[f'Z_{category}'] = 0
    else:
        df_fantasy[f'Z_{category}'] = (df_fantasy[category] - mean) / std
df_fantasy['Z_TO'] = -df_fantasy['Z_TO']
df_fantasy['Fantasy_Score'] = df_fantasy[[f'Z_{cat}' for cat in fantasy_categories]].sum(axis=1)
df_fantasy_ranked = df_fantasy.dropna(subset=['Fantasy_Score']).sort_values(
    by='Fantasy_Score', ascending=False).reset_index(drop=True)
df_fantasy_ranked['rank'] = df_fantasy_ranked.index + 1
```

pandas `Series.mean()` is the arithmetic mean and `Series.std()` is the
Bessel-corrected (ddof = 1) sample standard deviation.  A player is
modelled with its identifier and the per-category numeric values after
the `fillna(0)` above.  `Fantasy_Score` is never `NaN` (`sum` skips
`NaN`), so the `dropna` is the identity and is not modelled.

`sort_values(by=..., ascending=False)` is implemented by pandas
`nargsort` (since the GH27237 fix) as: reverse the values and indices,
take a stable ascending argsort of the reversed array, then reverse
the resulting indexer.  The double reversal around the stable
ascending sort means a descending sort keeps tied keys in their
original input order.  The descending order is therefore modelled as
`List.reverse`, then a stable ascending insertion sort on
`Fantasy_Score`, then `List.reverse` again.  The comparison consults
only `Fantasy_Score`: no secondary sort key is passed.
-/

/-- The fixed nine fantasy categories (`fantasy_categories`); `TPM`
stands for `3PTM`, `FGp` for `FG%`, `FTp` for `FT%`. -/
inductive Cat where
  | PTS | REB | AST | ST | BLK | TPM | FGp | FTp | TO
deriving DecidableEq

/-- The list `fantasy_categories` in source order. -/
def fantasyCategories : List Cat :=
  [.PTS, .REB, .AST, .ST, .BLK, .TPM, .FGp, .FTp, .TO]

/-- A player row of `df_fantasy`: its identifier (`player_key` /
`full_name`) and its numeric value in each category after the
`fillna(0)` coercion. -/
structure Player where
  pid : String
  stats : Cat → ℚ

/-- The column `df_fantasy[category]`: the values of one category over
the whole population. -/
def catValues (pop : List Player) (c : Cat) : List ℚ :=
  pop.map (fun p => p.stats c)

/-- pandas `Series.mean()`: arithmetic mean. -/
def seriesMean (l : List ℚ) : ℚ :=
  l.sum / l.length

/-- pandas `Series.var(ddof=1)`: Bessel-corrected sample variance,
`Σ (x − mean)² / (n − 1)`. -/
def sampleVar (l : List ℚ) : ℚ :=
  (l.map (fun x => (x - seriesMean l) ^ 2)).sum / ((l.length : ℚ) - 1)

/-- pandas `Series.std()`: square root of the ddof = 1 sample
variance. -/
noncomputable def sampleStd (l : List ℚ) : ℝ :=
  Real.sqrt ((sampleVar l : ℚ) : ℝ)

/-- The z-score column `Z_{category}` evaluated at one player: `0` when
`std == 0`, else `(value − mean) / std`. -/
noncomputable def zscore (pop : List Player) (c : Cat) (p : Player) : ℝ :=
  if sampleStd (catValues pop c) = 0 then 0
  else ((p.stats c : ℝ) - ((seriesMean (catValues pop c) : ℚ) : ℝ)) / sampleStd (catValues pop c)

/-- The z-score columns after `df_fantasy['Z_TO'] = -df_fantasy['Z_TO']`:
the turnover z-score is sign-inverted, the other eight are unchanged. -/
noncomputable def zAdj (pop : List Player) (c : Cat) (p : Player) : ℝ :=
  if c = Cat.TO then -(zscore pop c p) else zscore pop c p

/-- The column `Fantasy_Score`: the unweighted sum of the nine (TO-inverted)
z-score columns. -/
noncomputable def fantasyScore (pop : List Player) (p : Player) : ℝ :=
  (fantasyCategories.map (fun c => zAdj pop c p)).sum

/-- The ascending comparison used by `sort_values(by='Fantasy_Score')`:
it consults only the scores. -/
def byScore (pop : List Player) (p q : Player) : Prop :=
  fantasyScore pop p ≤ fantasyScore pop q

/-- The sort `sort_values(by='Fantasy_Score', ascending=False)` as pandas
`nargsort` executes it: reverse the rows, stable ascending sort on the
score, reverse again — so tied scores keep their original input
order. -/
noncomputable def sortDesc (pop : List Player) : List Player :=
  (@List.insertionSort Player (byScore pop) (fun _ _ => Classical.dec _) pop.reverse).reverse

/-- The rank assignment `df_fantasy_ranked.index + 1`: pair
each row of the sorted frame with its 1-based position. -/
def withRanks : ℕ → List Player → List (ℕ × Player)
  | _, [] => []
  | n, p :: ps => (n, p) :: withRanks (n + 1) ps

/-- The frame `df_fantasy_ranked` with its `rank` column: the population sorted
by `Fantasy_Score` descending, each player paired with its 1-based
rank. -/
noncomputable def rankedPlayers (pop : List Player) : List (ℕ × Player) :=
  withRanks 1 (sortDesc pop)

/-- Modelled from the spec (not from the source): the population
(ddof = 0) variance `Σ (x − mean)² / n` that §4.6 of the spec names. -/
def popVar (l : List ℚ) : ℚ :=
  (l.map (fun x => (x - seriesMean l) ^ 2)).sum / (l.length : ℚ)

/-- Modelled from the spec (not from the source): the population
standard deviation of §4.6. -/
noncomputable def popStd (l : List ℚ) : ℝ :=
  Real.sqrt ((popVar l : ℚ) : ℝ)

/-- Modelled from the spec (not from the source): the z-score as §4.6
of the spec words it, with the population standard deviation in place
of the sample one. -/
noncomputable def zscoreSpecPop (l : List ℚ) (v : ℚ) : ℝ :=
  if popStd l = 0 then 0
  else ((v : ℝ) - ((seriesMean l : ℚ) : ℝ)) / popStd l

/-- A concrete player with value `0` in every category. -/
def pA : Player := ⟨"a", fun _ => 0⟩

/-- A concrete player with value `2` in every category. -/
def pB : Player := ⟨"b", fun _ => 2⟩

/-- A concrete two-player population with distinct values. -/
def popAB : List Player := [pA, pB]

/-- A concrete player with value `5` in every category. -/
def qA : Player := ⟨"a", fun _ => 5⟩

/-- A second concrete player with value `5` in every category: same
stats as `qA`, larger identifier. -/
def qB : Player := ⟨"b", fun _ => 5⟩

/-- A concrete two-player population whose two players have identical
stats, hence tied `Fantasy_Score`s. -/
def popTie : List Player := [qA, qB]

/-- The tied population with the larger identifier first: `qB` (pid
`"b"`) before `qA` (pid `"a"`). -/
def popTieBA : List Player := [qB, qA]

/-! ## Paginated ingestion (`src/main.py`, `get_all_player_data`)

```
all_players_data = []
start = 0
count = 25
while True:
    try:
        response = api.get(f"league/{league_id}/players;start={start};count={count};...")
        players_list = response['fantasy_content']['league'][1]['players']
        if not players_list or players_list['count'] == 0:
            break
        for i in range(players_list['count']):
            player_container = players_list[str(i)]['player']
            ... build player_info from basic info and stats ...
            all_players_data.append(player_info)
        start += count
    except Exception as e:
        print(f"An error occurred while fetching players: {e}")
        break
return all_players_data
```

The remote API is modelled as a function from the offset `start` to a
fetch result: `.fail` when `api.get` (or the extraction of
`players_list`) raises, `.page entries` for a decoded page whose
reported `count` equals the number of entries.  An individual player
entry is abstracted to the record its flattening produces (`.ok info`)
or `.malformed` when its unexpected shape makes the flattening body
raise; there is no try/except inside the `for` loop, so such an
exception propagates to the page-level handler.  The `while True` is
given explicit fuel; every theorem supplies enough fuel for the run it
describes. -/

/-- One entry of `players_list`: either a well-formed player container
whose flattening yields the record `info`, or an entry of unexpected
shape whose processing raises. -/
inductive Entry where
  | ok (info : String)
  | malformed
deriving DecidableEq

/-- Flattening of one player entry; `none` models the raised
exception. -/
def processEntry : Entry → Option String
  | .ok info => some info
  | .malformed => none

/-- The `for i in range(players_list['count'])` body over a page:
records flattened so far, and whether the page completed without an
exception.  On the first malformed entry the already-appended records
are kept and the exception aborts the rest of the page. -/
def processPage : List Entry → List String × Bool
  | [] => ([], true)
  | e :: rest =>
    match processEntry e with
    | some info =>
      let r := processPage rest
      (info :: r.1, r.2)
    | none => ([], false)

/-- Result of one `api.get` for a page at a given offset. -/
inductive FetchResult where
  | fail
  | page (entries : List Entry)

/-- The fixed page size `count = 25`. -/
def pageSize : ℕ := 25

/-- The `while True` loop of `get_all_player_data`, with fuel: at each
offset, a failed fetch breaks with the accumulated records; a page
with zero players breaks with the accumulated records; otherwise the
page is flattened, and the loop continues at `start + 25` unless a
malformed entry raised, in which case it breaks keeping everything
appended so far. -/
def fetchLoop (api : ℕ → FetchResult) : ℕ → ℕ → List String → List String
  | 0, _, acc => acc
  | fuel + 1, start, acc =>
    match api start with
    | .fail => acc
    | .page entries =>
      if entries.length = 0 then acc
      else
        let r := processPage entries
        if r.2 then fetchLoop api fuel (start + pageSize) (acc ++ r.1)
        else acc ++ r.1

/-- Entry point `get_all_player_data`: run the pagination loop from offset `0`
with an empty accumulator. -/
def get_all_player_data (api : ℕ → FetchResult) (fuel : ℕ) : List String :=
  fetchLoop api fuel 0 []

/-- A remote API serving one player on the first page and an empty
page at offset 25. -/
def apiOne : ℕ → FetchResult := fun start =>
  if start = 0 then .page [Entry.ok "p1"] else .page []

/-- A remote API whose first page holds a malformed second entry. -/
def apiMal : ℕ → FetchResult := fun start =>
  if start = 0 then .page [Entry.ok "p1", Entry.malformed, Entry.ok "p2"]
  else if start = 25 then .page [Entry.ok "p3"]
  else .page []

/-! ## Theorems -/

/-- The rounding `roundHalfEven` returns a nearest integer: the distance to it is at
most `1/2`. -/
theorem abs_sub_roundHalfEven_le (x : ℚ) : |x - (roundHalfEven x : ℚ)| ≤ 1 / 2 := by
  have hfl : (⌊x⌋ : ℚ) + Int.fract x = x := Int.floor_add_fract x
  have h0 : 0 ≤ Int.fract x := Int.fract_nonneg x
  have h1 : Int.fract x < 1 := Int.fract_lt_one x
  unfold roundHalfEven
  split_ifs with hlt hgt hev
  all_goals rw [abs_le]
  all_goals constructor
  all_goals push_cast
  all_goals linarith

/-- C6: a percentage cell is coerced to numeric, scaled by 100,
rounded to a nearest integer and stored as a nullable integer; raw
`0.453` becomes the stored integer `45`, and a missing or unparsable
cell stays null rather than being defaulted to `0`. -/
theorem C6_percentage_normalization :
    (∀ (q : ℚ) (z : ℤ), normPct (some q) = some z → |q * 100 - (z : ℚ)| ≤ 1 / 2) ∧
    normPct (some (453 / 1000)) = some 45 ∧
    normPct none = none := by
  refine ⟨?_, ?_, rfl⟩
  · intro q z h
    have hz : roundHalfEven (q * 100) = z := Option.some.inj h
    rw [← hz]
    exact abs_sub_roundHalfEven_le (q * 100)
  · show (some (roundHalfEven (453 / 1000 * 100)) : Option ℤ) = some 45
    norm_num [roundHalfEven, Int.fract]

/-- Witness for C6 at the concrete percentage `0.453`. -/
theorem C6_percentage_normalization_witness :
    |(453 / 1000 : ℚ) * 100 - ((45 : ℤ) : ℚ)| ≤ 1 / 2 :=
  C6_percentage_normalization.1 (453 / 1000) 45 C6_percentage_normalization.2.1

/-- C7: a count cell is coerced to numeric and stored as an integer;
a missing or unparsable cell is defaulted to `0`, never stored as
null (the result type `ℤ` has no null). -/
theorem C7_count_normalization :
    normCount none = 0 ∧ (∀ z : ℤ, normCount (some (z : ℚ)) = z) := by
  constructor
  · show truncQ 0 = 0
    norm_num [truncQ]
  · intro z
    show truncQ (z : ℚ) = z
    unfold truncQ
    split_ifs <;> simp

/-- Witness for C7 at the concrete count `7`. -/
theorem C7_count_normalization_witness : normCount (some ((7 : ℤ) : ℚ)) = 7 :=
  C7_count_normalization.2 7

/-- C8: the fraction parser maps `"10/20"` to `(10.0, 20.0)`, `"abc"`
to `(None, None)`, and the empty string as well as any non-string
input to `(None, None)`. -/
theorem C8_parse_fraction :
    parse_fraction (.str "10/20") = (some 10, some 20) ∧
    parse_fraction (.str "abc") = (none, none) ∧
    parse_fraction (.str "") = (none, none) ∧
    parse_fraction .nonstr = (none, none) := by
  refine ⟨?_, ?_, ?_, ?_⟩ <;> decide

/-- C10: a count cell with a non-integer numeric value is truncated
toward zero by `astype(int)` (`3.7` is stored as `3`, `-3.7` as `-3`),
not rounded; the percentage normalization by contrast rounds the same
value `3.7` (from raw `0.037`) to `4`. -/
theorem C10_count_truncation :
    (∀ q : ℚ, 0 ≤ q → normCount (some q) = ⌊q⌋) ∧
    (∀ q : ℚ, q < 0 → normCount (some q) = ⌈q⌉) ∧
    normCount (some (37 / 10)) = 3 ∧
    normCount (some (-(37 / 10))) = -3 ∧
    normPct (some (37 / 1000)) = some 4 := by
  refine ⟨?_, ?_, ?_, ?_, ?_⟩
  · intro q hq
    show truncQ q = ⌊q⌋
    rw [truncQ, if_pos hq]
  · intro q hq
    show truncQ q = ⌈q⌉
    rw [truncQ, if_neg (not_le.mpr hq)]
  · show truncQ (37 / 10) = 3
    norm_num [truncQ]
  · show truncQ (-(37 / 10)) = -3
    rw [truncQ, if_neg (by norm_num), Int.ceil_neg]
    norm_num
  · show (some (roundHalfEven (37 / 1000 * 100)) : Option ℤ) = some 4
    norm_num [roundHalfEven, Int.fract]

/-- Witness for C10 at the concrete value `5/2`. -/
theorem C10_count_truncation_witness : normCount (some (5 / 2 : ℚ)) = 2 :=
  (C10_count_truncation.1 (5 / 2) (by norm_num)).trans (by norm_num)

/-- Processing a page that contains a malformed entry stops at that
entry: the records flattened before it are kept and the page reports
failure. -/
theorem processPage_malformed (pre rest : List Entry)
    (hpre : ∀ e ∈ pre, e ≠ Entry.malformed) :
    processPage (pre ++ Entry.malformed :: rest) = (pre.filterMap processEntry, false) := by
  induction pre with
  | nil => rfl
  | cons e pre ih =>
    have he : e ≠ Entry.malformed := hpre e (List.mem_cons_self e pre)
    obtain ⟨info, rfl⟩ : ∃ info, e = Entry.ok info := by
      cases e with
      | ok info => exact ⟨info, rfl⟩
      | malformed => exact absurd rfl he
    have ih' := ih (fun x hx => hpre x (List.mem_cons_of_mem _ hx))
    simp only [List.cons_append, processPage, processEntry, List.filterMap_cons]
    show (info :: (processPage (pre ++ Entry.malformed :: rest)).1,
        (processPage (pre ++ Entry.malformed :: rest)).2) = _
    rw [ih']

/-- C3: the pagination loop starts at offset 0 with page size 25; a
failed fetch stops immediately and returns the accumulated players; a
page reporting zero players terminates the loop and returns the
accumulated players; a successful non-empty page advances the offset
by the page size 25. -/
theorem C3_pagination :
    pageSize = 25 ∧
    (∀ (api : ℕ → FetchResult) (fuel : ℕ),
      get_all_player_data api fuel = fetchLoop api fuel 0 []) ∧
    (∀ (api : ℕ → FetchResult) (fuel start : ℕ) (acc : List String),
      api start = .fail → fetchLoop api (fuel + 1) start acc = acc) ∧
    (∀ (api : ℕ → FetchResult) (fuel start : ℕ) (acc : List String),
      api start = .page [] → fetchLoop api (fuel + 1) start acc = acc) ∧
    (∀ (api : ℕ → FetchResult) (fuel start : ℕ) (acc : List String)
      (entries : List Entry) (infos : List String),
      api start = .page entries → entries ≠ [] → processPage entries = (infos, true) →
      fetchLoop api (fuel + 1) start acc = fetchLoop api fuel (start + 25) (acc ++ infos)) := by
  refine ⟨rfl, fun _ _ => rfl, ?_, ?_, ?_⟩
  · intro api fuel start acc h
    simp only [fetchLoop, h]
  · intro api fuel start acc h
    simp only [fetchLoop, h, List.length_nil, if_pos]
  · intro api fuel start acc entries infos h hne hp
    have hlen : entries.length ≠ 0 := by simpa [List.length_eq_zero] using hne
    simp only [fetchLoop, h, if_neg hlen, hp]
    rfl

/-- Witness for C3: one full run against `apiOne` using the page-step
and empty-page clauses. -/
theorem C3_pagination_witness : get_all_player_data apiOne 2 = ["p1"] := by
  have h1 := C3_pagination.2.2.2.2 apiOne 1 0 [] [Entry.ok "p1"] ["p1"] rfl (by decide) rfl
  have h2 := C3_pagination.2.2.2.1 apiOne 0 25 ([] ++ ["p1"]) rfl
  exact h1.trans h2

/-- Counterexample to C5 as stated: against `apiMal`, skipping the
malformed entry and continuing with the rest of the page and the next
page would yield `["p1", "p2", "p3"]`, but `get_all_player_data`
returns `["p1"]` — the malformed entry ends ingestion. -/
theorem C5_counterexample :
    get_all_player_data apiMal 5 = ["p1"] ∧
    (["p1"] : List String) ≠ ["p1", "p2", "p3"] := by
  refine ⟨?_, by decide⟩
  decide

/-- C5 amended: a malformed player entry during flattening is not
skipped; the exception it raises is caught by the page-level handler,
which stops ingestion immediately — the records flattened before it
(prior pages and earlier entries of the same page) are returned and no
further page is fetched. -/
theorem C5_malformed_entry_stops_ingestion :
    ∀ (api : ℕ → FetchResult) (fuel start : ℕ) (acc : List String)
      (pre rest : List Entry),
      api start = .page (pre ++ Entry.malformed :: rest) →
      (∀ e ∈ pre, e ≠ Entry.malformed) →
      fetchLoop api (fuel + 1) start acc = acc ++ pre.filterMap processEntry := by
  intro api fuel start acc pre rest h hpre
  have hlen : (pre ++ Entry.malformed :: rest).length ≠ 0 := by
    simp [List.length_append]
  simp only [fetchLoop, h, if_neg hlen, processPage_malformed pre rest hpre]
  simp

/-- Witness for the amended C5 against `apiMal`. -/
theorem C5_malformed_entry_stops_ingestion_witness :
    fetchLoop apiMal 5 0 [] = ["p1"] := by
  have h := C5_malformed_entry_stops_ingestion apiMal 4 0 []
    [Entry.ok "p1"] [Entry.ok "p2"] rfl (by decide)
  simpa using h

/-- C4: `Fantasy_Score` is the unweighted sum of the nine per-category
z-scores with the turnover z-score sign-inverted; a player with
above-average turnovers (in a population where the turnover column has
non-zero std) receives a strictly negative contribution from the
turnover category. -/
theorem C4_fantasy_score_sum :
    ∀ (pop : List Player) (p : Player),
      (fantasyScore pop p =
        zscore pop .PTS p + zscore pop .REB p + zscore pop .AST p + zscore pop .ST p +
        zscore pop .BLK p + zscore pop .TPM p + zscore pop .FGp p + zscore pop .FTp p
        - zscore pop .TO p) ∧
      (sampleStd (catValues pop .TO) ≠ 0 →
        seriesMean (catValues pop .TO) < p.stats .TO →
        zAdj pop .TO p < 0) := by
  intro pop p
  constructor
  · simp [fantasyScore, fantasyCategories, zAdj]
    ring
  · intro hstd hmean
    have hpos : 0 < sampleStd (catValues pop .TO) :=
      lt_of_le_of_ne (Real.sqrt_nonneg _) (Ne.symm hstd)
    have hz : 0 < zscore pop .TO p := by
      rw [zscore, if_neg hstd]
      apply div_pos _ hpos
      have hc : ((seriesMean (catValues pop .TO) : ℚ) : ℝ) < ((p.stats .TO : ℚ) : ℝ) := by
        exact_mod_cast hmean
      linarith
    rw [zAdj, if_pos rfl]
    linarith

/-- Witness for C4 on the concrete population `popAB`, whose second
player has above-average turnovers. -/
theorem C4_fantasy_score_sum_witness : zAdj popAB Cat.TO pB < 0 := by
  have hvar : sampleVar (catValues popAB Cat.TO) = 2 := by
    show sampleVar [0, 2] = 2
    simp [sampleVar, seriesMean]
    norm_num
  have hstd : sampleStd (catValues popAB Cat.TO) ≠ 0 := by
    rw [sampleStd, hvar]
    rw [Real.sqrt_ne_zero']
    norm_num
  have hmean : seriesMean (catValues popAB Cat.TO) < pB.stats Cat.TO := by
    show seriesMean [0, 2] < 2
    simp [seriesMean]
  exact (C4_fantasy_score_sum popAB pB).2 hstd hmean

/-- C9: the ranking engine is a pure function of its input population:
two runs on the same input produce identical ranked outputs and
identical `Fantasy_Score`s. -/
theorem C9_ranking_deterministic :
    ∀ pop₁ pop₂ : List Player, pop₁ = pop₂ →
      rankedPlayers pop₁ = rankedPlayers pop₂ ∧
      ∀ p, fantasyScore pop₁ p = fantasyScore pop₂ p := by
  intro pop₁ pop₂ h
  subst h
  exact ⟨rfl, fun _ => rfl⟩

/-- Witness for C9 on the concrete population `popAB`. -/
theorem C9_ranking_deterministic_witness :
    rankedPlayers popAB = rankedPlayers popAB ∧
    fantasyScore popAB pA = fantasyScore popAB pA :=
  ⟨(C9_ranking_deterministic popAB popAB rfl).1,
   (C9_ranking_deterministic popAB popAB rfl).2 pA⟩

/-- The mean of a nonempty constant column is that constant. -/
theorem seriesMean_const (l : List ℚ) (v : ℚ) (hne : l ≠ [])
    (h : ∀ x ∈ l, x = v) : seriesMean l = v := by
  have hrep : l = List.replicate l.length v := List.eq_replicate_of_mem h
  have hlen : (l.length : ℚ) ≠ 0 := by
    exact_mod_cast Nat.cast_ne_zero.mpr (by simpa [List.length_eq_zero] using hne)
  rw [seriesMean]
  nth_rewrite 1 [hrep]
  rw [List.sum_replicate, nsmul_eq_mul]
  field_simp

/-- The ddof = 1 sample variance of a constant column is `0`. -/
theorem sampleVar_const (l : List ℚ) (v : ℚ) (hne : l ≠ [])
    (h : ∀ x ∈ l, x = v) : sampleVar l = 0 := by
  have hm := seriesMean_const l v hne h
  have hmap : l.map (fun x => (x - seriesMean l) ^ 2) = List.replicate l.length 0 := by
    have : ∀ y ∈ l.map (fun x => (x - seriesMean l) ^ 2), y = 0 := by
      intro y hy
      obtain ⟨x, hx, rfl⟩ := List.mem_map.mp hy
      rw [h x hx, hm]
      ring
    calc l.map (fun x => (x - seriesMean l) ^ 2)
        = List.replicate (l.map (fun x => (x - seriesMean l) ^ 2)).length 0 :=
          List.eq_replicate_of_mem this
      _ = List.replicate l.length 0 := by rw [List.length_map]
  rw [sampleVar, hmap, List.sum_replicate]
  simp

/-- C1 amended: the ranking engine computes each z-score as
`(value − population mean) / sample standard deviation` where the
standard deviation is the Bessel-corrected (ddof = 1) one of pandas
`Series.std()`; when that standard deviation is zero — in particular
when every player has the same value in the category — the z-score is
exactly `0` and no division happens. -/
theorem C1_zscore_sample_std :
    ∀ (pop : List Player) (c : Cat) (p : Player), 2 ≤ pop.length →
      (sampleStd (catValues pop c) ≠ 0 →
        zscore pop c p = ((p.stats c : ℚ) : ℝ) * (sampleStd (catValues pop c))⁻¹ -
          ((seriesMean (catValues pop c) : ℚ) : ℝ) * (sampleStd (catValues pop c))⁻¹ ∧
        sampleStd (catValues pop c) = Real.sqrt ((sampleVar (catValues pop c) : ℚ) : ℝ)) ∧
      ((∀ q ∈ pop, q.stats c = p.stats c) → zscore pop c p = 0) := by
  intro pop c p _hlen
  constructor
  · intro hstd
    refine ⟨?_, rfl⟩
    rw [zscore, if_neg hstd]
    ring
  · intro hconst
    have hne : catValues pop c ≠ [] := by
      have : pop ≠ [] := by
        intro h
        rw [h] at _hlen
        simp at _hlen
      simpa [catValues]
    have hall : ∀ x ∈ catValues pop c, x = p.stats c := by
      intro x hx
      obtain ⟨q, hq, rfl⟩ := List.mem_map.mp hx
      exact hconst q hq
    have hvar : sampleVar (catValues pop c) = 0 :=
      sampleVar_const _ (p.stats c) hne hall
    have hstd0 : sampleStd (catValues pop c) = 0 := by
      rw [sampleStd, hvar]
      simp
    rw [zscore, if_pos hstd0]

/-- Witness for the amended C1 on the constant population `popTie`:
the PTS column is constant, so the z-score is `0`. -/
theorem C1_zscore_sample_std_witness : zscore popTie Cat.PTS qA = 0 := by
  refine (C1_zscore_sample_std popTie Cat.PTS qA (by decide)).2 ?_
  intro q hq
  have : q = qA ∨ q = qB := by simpa [popTie] using hq
  rcases this with rfl | rfl
  · rfl
  · rfl

/-- Counterexample to C1 as stated: on the population `popAB` (PTS
values 0 and 2) the code divides by the sample standard deviation
`√2`, giving `1/√2` for the second player, while the claimed
population standard deviation is `1`, which would give `1`. -/
theorem C1_counterexample :
    zscore popAB Cat.PTS pB ≠ zscoreSpecPop (catValues popAB Cat.PTS) (pB.stats Cat.PTS) := by
  have hv : catValues popAB Cat.PTS = [0, 2] := rfl
  have hmean : seriesMean (catValues popAB Cat.PTS) = 1 := by
    show seriesMean [0, 2] = 1
    simp [seriesMean]
  have hvar : sampleVar (catValues popAB Cat.PTS) = 2 := by
    show sampleVar [0, 2] = 2
    simp [sampleVar, seriesMean]
    norm_num
  have hpvar : popVar (catValues popAB Cat.PTS) = 1 := by
    show popVar [0, 2] = 1
    simp [popVar, seriesMean]
    norm_num
  have hstd : sampleStd (catValues popAB Cat.PTS) = Real.sqrt 2 := by
    rw [sampleStd, hvar]
    norm_num
  have hstdne : sampleStd (catValues popAB Cat.PTS) ≠ 0 := by
    rw [hstd, Real.sqrt_ne_zero']
    norm_num
  have hpstd : popStd (catValues popAB Cat.PTS) = 1 := by
    rw [popStd, hpvar]
    norm_num
  have hz : zscore popAB Cat.PTS pB = 1 / Real.sqrt 2 := by
    rw [zscore, if_neg hstdne, hstd, hmean]
    rw [show pB.stats Cat.PTS = 2 from rfl]
    norm_num
  have hspec : zscoreSpecPop (catValues popAB Cat.PTS) (pB.stats Cat.PTS) = 1 := by
    rw [zscoreSpecPop, if_neg (by rw [hpstd]; norm_num), hpstd, hmean]
    rw [show pB.stats Cat.PTS = 2 from rfl]
    norm_num
  rw [hz, hspec]
  have hgt : 1 < Real.sqrt 2 := by
    rw [show (1 : ℝ) = Real.sqrt 1 from Real.sqrt_one.symm]
    exact Real.sqrt_lt_sqrt (by norm_num) (by norm_num)
  have hlt : 1 / Real.sqrt 2 < 1 := by
    rw [div_lt_one (by linarith)]
    exact hgt
  exact ne_of_lt hlt

/-- The `rank` column of `withRanks` is the 1-step integer range
starting at `n`. -/
theorem withRanks_map_fst (n : ℕ) (l : List Player) :
    (withRanks n l).map Prod.fst = List.range' n l.length := by
  induction l generalizing n with
  | nil => rfl
  | cons p ps ih =>
    simp only [withRanks, List.map_cons, List.length_cons, List.range'_succ, ih]

/-- Dropping the `rank` column of `withRanks` gives back the sorted
rows. -/
theorem withRanks_map_snd (n : ℕ) (l : List Player) :
    (withRanks n l).map Prod.snd = l := by
  induction l generalizing n with
  | nil => rfl
  | cons p ps ih =>
    simp only [withRanks, List.map_cons, ih]

/-- The sorted frame is a permutation of the input population. -/
theorem sortDesc_perm (pop : List Player) : (sortDesc pop).Perm pop := by
  letI : DecidableRel (byScore pop) := fun _ _ => Classical.dec _
  rw [sortDesc]
  exact (List.reverse_perm _).trans
    ((List.perm_insertionSort (byScore pop) pop.reverse).trans (List.reverse_perm pop))

/-- C2 amended: the ranked output is a permutation of the input
population sorted by `Fantasy_Score` descending, and the assigned
ranks are exactly the list `1, 2, ..., N` — 1-based, no duplicates, no
gaps.  (The comparison consults no secondary key: tied scores are left
in their original input order by the stable score-only sort, not
ordered by player identifier.) -/
theorem C2_rank_bijection_sorted :
    ∀ pop : List Player,
      (rankedPlayers pop).map Prod.fst = List.range' 1 pop.length ∧
      ((rankedPlayers pop).map Prod.snd).Perm pop ∧
      List.Sorted (fun p q => fantasyScore pop q ≤ fantasyScore pop p)
        ((rankedPlayers pop).map Prod.snd) := by
  intro pop
  have hperm : (sortDesc pop).Perm pop := sortDesc_perm pop
  refine ⟨?_, ?_, ?_⟩
  · rw [rankedPlayers, withRanks_map_fst, hperm.length_eq]
  · rw [rankedPlayers, withRanks_map_snd]
    exact hperm
  · rw [rankedPlayers, withRanks_map_snd, sortDesc]
    letI : DecidableRel (byScore pop) := fun _ _ => Classical.dec _
    haveI : IsTotal Player (byScore pop) := ⟨fun p q => le_total _ _⟩
    haveI : IsTrans Player (byScore pop) := ⟨fun _ _ _ hab hbc => le_trans hab hbc⟩
    rw [List.Sorted, List.pairwise_reverse]
    show List.Pairwise (byScore pop) (List.insertionSort (byScore pop) pop.reverse)
    exact List.sorted_insertionSort (byScore pop) pop.reverse

/-- Witness for C2 on the concrete population `popAB`. -/
theorem C2_rank_bijection_sorted_witness :
    (rankedPlayers popAB).map Prod.fst = List.range' 1 popAB.length ∧
    ((rankedPlayers popAB).map Prod.snd).Perm popAB ∧
    List.Sorted (fun p q => fantasyScore popAB q ≤ fantasyScore popAB p)
      ((rankedPlayers popAB).map Prod.snd) :=
  C2_rank_bijection_sorted popAB

/-- Counterexample to C2 as stated: in `popTieBA` the two players have
identical stats, hence equal `Fantasy_Score`s, and arrive with the
larger identifier `"b"` first; the stable descending sort keeps that
input order, so the ranked output lists `"b"` before `"a"` even though
`"a" < "b"` — equal scores are not ordered by player identifier
ascending. -/
theorem C2_counterexample :
    fantasyScore popTieBA qA = fantasyScore popTieBA qB ∧
    qA.pid = "a" ∧ qB.pid = "b" ∧ qA.pid < qB.pid ∧
    (rankedPlayers popTieBA).map (fun rp => rp.2.pid) = ["b", "a"] ∧
    (["b", "a"] : List String) ≠ ["a", "b"] := by
  have hsc : fantasyScore popTieBA qA = fantasyScore popTieBA qB := rfl
  refine ⟨hsc, rfl, rfl, ?_, ?_, by decide⟩
  · show ("a" : String) < "b"
    rw [String.lt_iff_toList_lt]
    decide
  have h1 : sortDesc popTieBA = [qB, qA] := by
    letI : DecidableRel (byScore popTieBA) := fun _ _ => Classical.dec _
    rw [sortDesc]
    show (List.insertionSort (byScore popTieBA) [qA, qB]).reverse = [qB, qA]
    simp only [List.insertionSort, List.orderedInsert]
    rw [if_pos (show byScore popTieBA qA qB from le_of_eq hsc)]
    rfl
  rw [rankedPlayers, h1]
  rfl

end NbaSpec
